import Mathlib

/-!
Verification of the crop-box geometry and CLI behaviour of
`scripts/make_icns.py`.

The script converts a PNG into a macOS icon container.  Its computational
core, `build_prepared_icon`, computes a square crop box of the source image
centred on the alpha-channel bounding box, crops, and resizes to 1024×1024.
We embed the image model, the bounding-box discovery (Pillow's `getbbox` on
the alpha channel), the crop-box arithmetic (with Python's `int`, `round`
and `//` semantics made explicit over `ℚ`/`ℤ`), and the `main` entry point.
-/

/-- An in-memory raster image, as seen after `convert("RGBA")`: a width, a
height, and the alpha value of each pixel (pixels outside the
`width × height` grid are irrelevant). -/
structure Img where
  width : Nat
  height : Nat
  alpha : Nat → Nat → Nat

/-- The list of coordinates of the not-fully-transparent pixels of the
image (alpha nonzero), scanned row by row. -/
def Img.pixList (img : Img) : List (Nat × Nat) :=
  (List.range img.height).flatMap (fun y =>
    (List.range img.width).filterMap (fun x =>
      if img.alpha x y ≠ 0 then some (x, y) else none))

/-- Pillow `Image.getbbox` on the alpha channel: the minimal rectangle
`(left, top, right, bottom)` containing every pixel with nonzero alpha
(right and bottom exclusive), or `none` when the image is fully
transparent. -/
def Img.getbbox (img : Img) : Option (Nat × Nat × Nat × Nat) :=
  match img.pixList with
  | [] => none
  | p :: ps =>
      some (ps.foldl (fun m q => min m q.1) p.1,
            ps.foldl (fun m q => min m q.2) p.2,
            ps.foldl (fun m q => max m q.1) p.1 + 1,
            ps.foldl (fun m q => max m q.2) p.2 + 1)

/-- Python `int()` applied to a real value: truncation toward zero
(`Rat.floor`/`Rat.ceil` are the executable floor and ceiling of `ℚ`). -/
def pyInt (q : ℚ) : Int := if 0 ≤ q then q.floor else q.ceil

/-- Python `round()` to the nearest integer, ties going to the even
integer. -/
def pyRound (q : ℚ) : Int :=
  if q - q.floor < 1/2 then q.floor
  else if 1/2 < q - q.floor then q.floor + 1
  else if q.floor % 2 = 0 then q.floor else q.floor + 1

/-- `centered_square_crop_bounds` from make_icns.py: the box of the side×side
square centred in a width×height image.  Python `//` is floor division,
hence `Int.fdiv`. -/
def centered_square_crop_bounds (width height side : Int) : Int × Int × Int × Int :=
  let left := Int.fdiv (width - side) 2
  let top := Int.fdiv (height - side) 2
  (left, top, left + side, top + side)

/-- The crop box computed inside `build_prepared_icon` (the part of the
function before the final crop-and-resize), with the three cases: fully
transparent image, fully opaque image, and partial content. -/
def build_crop_box (img : Img) (fill_ratio : ℚ) : Int × Int × Int × Int :=
  let width : Int := img.width
  let height : Int := img.height
  let min_dim : Int := min width height
  match img.getbbox with
  | none =>
      let crop_side : Int := pyInt ((min_dim : ℚ) * fill_ratio)
      centered_square_crop_bounds width height (max 1 crop_side)
  | some (left, top, right, bottom) =>
      let content_w : Int := max 1 ((right : Int) - (left : Int))
      let content_h : Int := max 1 ((bottom : Int) - (top : Int))
      let content_side : Int := max content_w content_h
      if (left, top, right, bottom) = (0, 0, img.width, img.height) then
        let crop_side : Int := pyInt ((min_dim : ℚ) * fill_ratio)
        centered_square_crop_bounds width height (max 1 crop_side)
      else
        let target_side : Int := pyInt ((content_side : ℚ) / fill_ratio)
        let crop_side : Int := max content_side (min min_dim target_side)
        let center_x : ℚ := ((left : ℚ) + (right : ℚ)) / 2
        let center_y : ℚ := ((top : ℚ) + (bottom : ℚ)) / 2
        let crop_left : Int := pyRound (center_x - (crop_side : ℚ) / 2)
        let crop_top : Int := pyRound (center_y - (crop_side : ℚ) / 2)
        let crop_left := max 0 (min (width - crop_side) crop_left)
        let crop_top := max 0 (min (height - crop_side) crop_top)
        (crop_left, crop_top, crop_left + crop_side, crop_top + crop_side)

/-- `content_side` of the partial-content branch: the larger of the two
bounding-box dimensions, each floored to 1. -/
def content_side_of (l t r b : Nat) : Int :=
  max (max 1 ((r : Int) - (l : Int))) (max 1 ((b : Int) - (t : Int)))

/-- `crop_side` of the partial-content branch: `content_side / fill_ratio`
truncated to an integer, clamped through
`max(content_side, min(min_dim, target_side))`. -/
def crop_side_of (width height l t r b : Nat) (fill_ratio : ℚ) : Int :=
  max (content_side_of l t r b)
    (min (min (width : Int) (height : Int))
      (pyInt ((content_side_of l t r b : ℚ) / fill_ratio)))

/-- The crop box of the partial-content branch as a function of the image
size and the alpha bounding box: centre the square of side `crop_side_of`
on the box's centroid, then clamp its top-left corner into
`[0, width - crop_side] × [0, height - crop_side]` (same arithmetic as the
`else` branch of `build_prepared_icon`). -/
def content_crop_box (width height l t r b : Nat) (fill_ratio : ℚ) : Int × Int × Int × Int :=
  let crop_side := crop_side_of width height l t r b fill_ratio
  let crop_left := pyRound (((l : ℚ) + (r : ℚ)) / 2 - (crop_side : ℚ) / 2)
  let crop_top := pyRound (((t : ℚ) + (b : ℚ)) / 2 - (crop_side : ℚ) / 2)
  let crop_left := max 0 (min ((width : Int) - crop_side) crop_left)
  let crop_top := max 0 (min ((height : Int) - crop_side) crop_top)
  (crop_left, crop_top, crop_left + crop_side, crop_top + crop_side)

/-- Pillow `Image.crop`: the rectangular region of the image delimited by the
box; coordinates sampled outside the source raster are fully transparent
(Pillow pads missing regions with zero). -/
def Img.crop (img : Img) (box : Int × Int × Int × Int) : Img :=
  { width := (box.2.2.1 - box.1).toNat
    height := (box.2.2.2 - box.2.1).toNat
    alpha := fun x y =>
      let sx : Int := box.1 + x
      let sy : Int := box.2.1 + y
      if 0 ≤ sx ∧ sx < img.width ∧ 0 ≤ sy ∧ sy < img.height then
        img.alpha sx.toNat sy.toNat
      else 0 }

/-- Modelled from the spec: Pillow `Image.resize` returns an image with
exactly the requested dimensions; the Lanczos resampling that computes the
pixel values is external-library code, modelled here by plain coordinate
scaling (no claim depends on resampled pixel values). -/
def Img.resize (img : Img) (w h : Nat) : Img :=
  { width := w
    height := h
    alpha := fun x y => img.alpha (x * img.width / w) (y * img.height / h) }

/-- `build_prepared_icon` from make_icns.py: compute the crop box, crop, and
resize to 1024×1024. -/
def build_prepared_icon (img : Img) (fill_ratio : ℚ) : Img :=
  (img.crop (build_crop_box img fill_ratio)).resize 1024 1024

/-- Outcome of running `main`: a normal return with an exit code and the
lines printed to standard error and standard output, or an uncaught
exception terminating the process. -/
inductive MainResult where
  | exited (code : Nat) (stderrLines stdoutLines : List String)
  | raised (exn : String)
deriving DecidableEq

/-- The usage string printed by `main` on a wrong argument count. -/
def usage_message : String := "Usage: make_icns.py <input_png> <output_icns> [fill_ratio]"

/-- `main` from make_icns.py.  Modelled from the spec: Python `float()`
parsing of the optional third argument and input-path existence are
external effects passed in as parameters (`parse_float` returns `none`
exactly when `float()` would raise `ValueError`); the directory creation
and the Pillow open/save on the success path are out of scope and assumed
to succeed, as in the spec's happy path. -/
def MakeIcns.main (argv : List String) (parse_float : String → Option ℚ)
    (path_exists : String → Bool) : MainResult :=
  if ¬ (argv.length = 3 ∨ argv.length = 4) then
    .exited 1 [usage_message] []
  else
    let input_path := argv.getD 1 ""
    let output_path := argv.getD 2 ""
    let fr : Option ℚ := if argv.length = 4 then parse_float (argv.getD 3 "") else some (16 / 25)
    match fr with
    | none => .raised "ValueError"
    | some _ =>
      if ¬ path_exists input_path then
        .exited 1 ["Icon source not found: " ++ input_path] []
      else
        .exited 0 [] ["Wrote icon: " ++ output_path]

/-- A test raster of size `w×h` whose opaque content is exactly the pixel
rectangle `[x0, x1) × [y0, y1)`. -/
def rectImg (w h x0 y0 x1 y1 : Nat) : Img :=
  ⟨w, h, fun x y => if x0 ≤ x ∧ x < x1 ∧ y0 ≤ y ∧ y < y1 then 255 else 0⟩

/-- Concrete test image: a fully transparent 3×3 raster. -/
def img_blank : Img := ⟨3, 3, fun _ _ => 0⟩

/-- Concrete test image: a fully opaque 1×1 raster. -/
def img_solid : Img := rectImg 1 1 0 0 1 1

/-- Concrete test image: a 2×5 raster whose opaque content is the rows
`y < 4`, so the alpha bounding box is `(0, 0, 2, 4)` and the content side
(4) exceeds `min_dim` (2). -/
def img_tall : Img := rectImg 2 5 0 0 2 4

/-- Concrete test image: a 4×4 raster whose opaque content is the central
2×2 square, with alpha bounding box `(1, 1, 3, 3)`. -/
def img_small : Img := rectImg 4 4 1 1 3 3

/-- Concrete test image for the end-to-end example: a 200×100 raster whose
opaque content is exactly the pixel rectangle `(50, 20)`–`(150, 80)`. -/
def img_case5 : Img := rectImg 200 100 50 20 150 80

/-! ### Arithmetic primitives: floors, truncation, banker's rounding -/

/-- `Rat.floor` is the floor of the linear ordered field `ℚ`. -/
theorem rat_floor_eq_floor (q : ℚ) : q.floor = ⌊q⌋ := by
  rw [Rat.floor_def', Rat.floor_def]

/-- On nonnegative arguments Python `int()` truncation is the floor. -/
theorem pyInt_eq_floor {q : ℚ} (h : 0 ≤ q) : pyInt q = ⌊q⌋ := by
  simp only [pyInt, if_pos h, rat_floor_eq_floor]

/-- Python `int()` of a nonnegative integer value is that integer. -/
theorem pyInt_intCast {n : ℤ} (h : 0 ≤ n) : pyInt (n : ℚ) = n := by
  rw [pyInt_eq_floor (by exact_mod_cast h), Int.floor_intCast]

/-- Python `round()` of an integer value is that integer. -/
theorem pyRound_intCast (n : ℤ) : pyRound (n : ℚ) = n := by
  simp only [pyRound, rat_floor_eq_floor, Int.floor_intCast, sub_self]
  norm_num

/-- `round` never overshoots by more than a half. -/
theorem pyRound_le_add_half (q : ℚ) : (pyRound q : ℚ) ≤ q + 1/2 := by
  simp only [pyRound, rat_floor_eq_floor]
  have h1 := Int.floor_le q
  split_ifs with h2 h3 h4 <;> push_cast <;> linarith

/-- `round` never undershoots by more than a half. -/
theorem sub_half_le_pyRound (q : ℚ) : q - 1/2 ≤ (pyRound q : ℚ) := by
  simp only [pyRound, rat_floor_eq_floor]
  have h1 := Int.floor_le q
  have h2 := Int.lt_floor_add_one q
  split_ifs with h3 h4 h5 <;> push_cast <;> linarith

/-- `round` of a value at most an integer `n` is at most `n`. -/
theorem pyRound_le_of_le {q : ℚ} {n : ℤ} (h : q ≤ (n : ℚ)) : pyRound q ≤ n := by
  have h1 := pyRound_le_add_half q
  have h2 : ((pyRound q : ℤ) : ℚ) < (n : ℚ) + 1 := by linarith
  have h3 : pyRound q < n + 1 := by exact_mod_cast h2
  omega

/-- `round` of a value at least an integer `n` is at least `n`. -/
theorem le_pyRound_of_le {q : ℚ} {n : ℤ} (h : (n : ℚ) ≤ q) : n ≤ pyRound q := by
  have h1 := sub_half_le_pyRound q
  have h2 : ((n : ℤ) : ℚ) < ((pyRound q : ℤ) : ℚ) + 1 := by push_cast; linarith
  have h3 : n < pyRound q + 1 := by exact_mod_cast h2
  omega

/-! ### The alpha bounding box -/

/-- A pixel is in the scanned list exactly when it is inside the raster and
not fully transparent. -/
theorem Img.mem_pixList {img : Img} {p : Nat × Nat} :
    p ∈ img.pixList ↔ p.1 < img.width ∧ p.2 < img.height ∧ img.alpha p.1 p.2 ≠ 0 := by
  obtain ⟨x, y⟩ := p
  simp only [Img.pixList, List.mem_flatMap, List.mem_filterMap, List.mem_range]
  constructor
  · rintro ⟨y', hy', x', hx', hif⟩
    by_cases h : img.alpha x' y' ≠ 0
    · rw [if_pos h] at hif
      obtain ⟨rfl, rfl⟩ := Prod.mk.injEq .. |>.mp (Option.some.inj hif)
      exact ⟨hx', hy', h⟩
    · rw [if_neg h] at hif
      exact absurd hif (by simp)
  · rintro ⟨hx, hy, ha⟩
    exact ⟨y, hy, x, hx, by rw [if_pos ha]⟩

/-- A running minimum never exceeds its starting value. -/
theorem foldl_min_le_start (g : Nat × Nat → Nat) (ps : List (Nat × Nat)) (a : Nat) :
    ps.foldl (fun m q => min m (g q)) a ≤ a := by
  induction ps generalizing a with
  | nil => exact le_refl a
  | cons p ps ih => exact le_trans (ih (min a (g p))) (min_le_left _ _)

/-- A running maximum stays below a bound dominating the start and every
element. -/
theorem foldl_max_lt (g : Nat × Nat → Nat) (ps : List (Nat × Nat)) (a w : Nat)
    (ha : a < w) (hps : ∀ q ∈ ps, g q < w) :
    ps.foldl (fun m q => max m (g q)) a < w := by
  induction ps generalizing a with
  | nil => exact ha
  | cons p ps ih =>
      exact ih _ (max_lt ha (hps p (List.mem_cons_self p ps)))
        (fun q hq => hps q (List.mem_cons_of_mem _ hq))

/-- A running minimum never exceeds the matching running maximum. -/
theorem foldl_min_le_foldl_max (g : Nat × Nat → Nat) (ps : List (Nat × Nat)) (a b : Nat)
    (hab : a ≤ b) :
    ps.foldl (fun m q => min m (g q)) a ≤ ps.foldl (fun m q => max m (g q)) b := by
  induction ps generalizing a b with
  | nil => exact hab
  | cons p ps ih =>
      exact ih _ _ (le_trans (min_le_left _ _) (le_trans hab (le_max_left _ _)))

/-- A bounding box returned by `getbbox` is a nonempty rectangle inside the
raster: `l < r ≤ width` and `t < b ≤ height`. -/
theorem Img.getbbox_bounds {img : Img} {l t r b : Nat}
    (h : img.getbbox = some (l, t, r, b)) :
    l < r ∧ r ≤ img.width ∧ t < b ∧ b ≤ img.height := by
  unfold Img.getbbox at h
  cases hp : img.pixList with
  | nil => rw [hp] at h; exact absurd h (by simp)
  | cons p ps =>
      rw [hp] at h
      have hmem : ∀ q ∈ p :: ps, q.1 < img.width ∧ q.2 < img.height := by
        intro q hq
        have : q ∈ img.pixList := hp ▸ hq
        have := Img.mem_pixList.mp this
        exact ⟨this.1, this.2.1⟩
      have hp1 : p.1 < img.width := (hmem p (List.mem_cons_self p ps)).1
      have hp2 : p.2 < img.height := (hmem p (List.mem_cons_self p ps)).2
      have hps1 : ∀ q ∈ ps, q.1 < img.width :=
        fun q hq => (hmem q (List.mem_cons_of_mem _ hq)).1
      have hps2 : ∀ q ∈ ps, q.2 < img.height :=
        fun q hq => (hmem q (List.mem_cons_of_mem _ hq)).2
      simp only [Option.some.injEq, Prod.mk.injEq] at h
      obtain ⟨rfl, rfl, rfl, rfl⟩ := h
      refine ⟨?_, ?_, ?_, ?_⟩
      · exact Nat.lt_succ_of_le
          (foldl_min_le_foldl_max (fun q => q.1) ps p.1 p.1 (le_refl _))
      · exact Nat.succ_le_of_lt (foldl_max_lt (fun q => q.1) ps p.1 img.width hp1 hps1)
      · exact Nat.lt_succ_of_le
          (foldl_min_le_foldl_max (fun q => q.2) ps p.2 p.2 (le_refl _))
      · exact Nat.succ_le_of_lt (foldl_max_lt (fun q => q.2) ps p.2 img.height hp2 hps2)

/-! ### The three branches of the crop-box computation -/

/-- Fully transparent image: the crop box is the fixed-ratio centred
square. -/
theorem build_crop_box_none {img : Img} (fr : ℚ) (h : img.getbbox = none) :
    build_crop_box img fr =
      centered_square_crop_bounds img.width img.height
        (max 1 (pyInt ((min (img.width : Int) (img.height : Int) : Int) * fr))) := by
  simp only [build_crop_box, h]

/-- Fully opaque image: the crop box is the same fixed-ratio centred
square. -/
theorem build_crop_box_full {img : Img} (fr : ℚ)
    (h : img.getbbox = some (0, 0, img.width, img.height)) :
    build_crop_box img fr =
      centered_square_crop_bounds img.width img.height
        (max 1 (pyInt ((min (img.width : Int) (img.height : Int) : Int) * fr))) := by
  simp only [build_crop_box, h]
  simp

/-- Partial content: the crop box is the clamped centred square around the
bounding box. -/
theorem build_crop_box_some {img : Img} (fr : ℚ) {l t r b : Nat}
    (hbb : img.getbbox = some (l, t, r, b))
    (hne : (l, t, r, b) ≠ (0, 0, img.width, img.height)) :
    build_crop_box img fr = content_crop_box img.width img.height l t r b fr := by
  simp only [build_crop_box, hbb]
  rw [if_neg hne]
  simp only [content_crop_box, crop_side_of, content_side_of]

/-! ### Crop-side bounds -/

/-- The content side is at least 1. -/
theorem one_le_content_side (l t r b : Nat) : 1 ≤ content_side_of l t r b :=
  le_trans (le_max_left 1 _) (le_max_left _ _)

/-- The crop side is never smaller than the content side. -/
theorem content_side_le_crop_side (w h l t r b : Nat) (fr : ℚ) :
    content_side_of l t r b ≤ crop_side_of w h l t r b fr :=
  le_max_left _ _

/-- The crop side never exceeds `max(content_side, min_dim)`. -/
theorem crop_side_le_max (w h l t r b : Nat) (fr : ℚ) :
    crop_side_of w h l t r b fr ≤
      max (content_side_of l t r b) (min (w : Int) (h : Int)) :=
  max_le (le_max_left _ _) (le_trans (min_le_left _ _) (le_max_right _ _))

/-- When the content fits in the short dimension, the crop side is bounded
by `min_dim`. -/
theorem crop_side_le_min_dim {w h l t r b : Nat} {fr : ℚ}
    (hcs : content_side_of l t r b ≤ min (w : Int) (h : Int)) :
    crop_side_of w h l t r b fr ≤ min (w : Int) (h : Int) :=
  max_le hcs (min_le_left _ _)

/-- The crop side is antitone in the fill ratio. -/
theorem crop_side_antitone (w h l t r b : Nat) {fr1 fr2 : ℚ}
    (h0 : 0 < fr1) (h12 : fr1 ≤ fr2) :
    crop_side_of w h l t r b fr2 ≤ crop_side_of w h l t r b fr1 := by
  have h02 : 0 < fr2 := lt_of_lt_of_le h0 h12
  have hcs : (0 : ℚ) ≤ (content_side_of l t r b : ℚ) := by
    have h1 := one_le_content_side l t r b
    exact_mod_cast le_trans zero_le_one h1
  have hdiv : (content_side_of l t r b : ℚ) / fr2 ≤ (content_side_of l t r b : ℚ) / fr1 := by
    gcongr
  have hT : pyInt ((content_side_of l t r b : ℚ) / fr2) ≤
      pyInt ((content_side_of l t r b : ℚ) / fr1) := by
    rw [pyInt_eq_floor (div_nonneg hcs h02.le), pyInt_eq_floor (div_nonneg hcs h0.le)]
    exact Int.floor_le_floor hdiv
  simp only [crop_side_of]
  exact max_le_max (le_refl _) (min_le_min (le_refl _) hT)

/-- The centred-square side used by the transparent and opaque branches is
between 1 and `min_dim` (when the image is nonempty). -/
theorem center_side_bounds {md : Int} {fr : ℚ} (hmd : 1 ≤ md) (h0 : 0 < fr) (h1 : fr ≤ 1) :
    1 ≤ max 1 (pyInt ((md : ℚ) * fr)) ∧ max 1 (pyInt ((md : ℚ) * fr)) ≤ md := by
  have hmd0 : (0 : ℚ) ≤ (md : ℚ) := by exact_mod_cast le_trans zero_le_one hmd
  have hnn : (0 : ℚ) ≤ (md : ℚ) * fr := mul_nonneg hmd0 h0.le
  refine ⟨le_max_left _ _, ?_⟩
  rw [pyInt_eq_floor hnn]
  refine max_le hmd ?_
  have hle : (md : ℚ) * fr ≤ (md : ℚ) := mul_le_of_le_one_right hmd0 h1
  calc ⌊(md : ℚ) * fr⌋ ≤ ⌊((md : ℤ) : ℚ)⌋ := Int.floor_le_floor hle
    _ = md := Int.floor_intCast md

/-! ### Geometry of the two box shapes -/

/-- The centred square box is a square of the given side. -/
theorem centered_square_sides (w h s : Int) :
    (centered_square_crop_bounds w h s).2.2.1 - (centered_square_crop_bounds w h s).1 = s ∧
    (centered_square_crop_bounds w h s).2.2.2 - (centered_square_crop_bounds w h s).2.1 = s := by
  constructor <;> simp [centered_square_crop_bounds]

/-- The centred square box lies inside the image when its side is between
0 and both dimensions. -/
theorem centered_square_in_bounds {w h s : Int} (hsw : s ≤ w) (hsh : s ≤ h) :
    0 ≤ (centered_square_crop_bounds w h s).1 ∧
    0 ≤ (centered_square_crop_bounds w h s).2.1 ∧
    (centered_square_crop_bounds w h s).2.2.1 ≤ w ∧
    (centered_square_crop_bounds w h s).2.2.2 ≤ h := by
  simp only [centered_square_crop_bounds]
  have hw : (0 : ℤ) ≤ w - s := by linarith
  have hh : (0 : ℤ) ≤ h - s := by linarith
  rw [Int.fdiv_eq_ediv _ (by norm_num : (0:ℤ) ≤ 2), Int.fdiv_eq_ediv _ (by norm_num : (0:ℤ) ≤ 2)]
  refine ⟨Int.ediv_nonneg hw (by norm_num), Int.ediv_nonneg hh (by norm_num), ?_, ?_⟩
  · have := Int.ediv_le_self 2 hw
    linarith
  · have := Int.ediv_le_self 2 hh
    linarith

/-- A clamped coordinate is nonnegative and leaves room for the crop side,
provided the side fits in the dimension. -/
theorem clamp_in_bounds {w S L0 : Int} (hS : S ≤ w) :
    0 ≤ max 0 (min (w - S) L0) ∧ max 0 (min (w - S) L0) + S ≤ w := by
  refine ⟨le_max_left _ _, ?_⟩
  have h1 : (0 : ℤ) ≤ w - S := by linarith
  have h2 : max 0 (min (w - S) L0) ≤ w - S := max_le h1 (min_le_left _ _)
  linarith

/-- The clamped coordinate never moves right of a nonnegative target that
the unclamped coordinate respects. -/
theorem clamp_le_of_le {w S L0 l : Int} (h0 : 0 ≤ l) (hL : L0 ≤ l) :
    max 0 (min (w - S) L0) ≤ l :=
  max_le h0 (le_trans (min_le_right _ _) hL)

/-- The clamped coordinate plus the crop side still covers a point below
both `w` and `L0 + S`. -/
theorem le_clamp_add {w S L0 r : Int} (hrw : r ≤ w) (hLr : r - S ≤ L0) :
    r ≤ max 0 (min (w - S) L0) + S := by
  rcases le_total (w - S) L0 with hc | hc
  · rw [min_eq_left hc]
    have := le_max_right (0 : ℤ) (w - S)
    linarith
  · rw [min_eq_right hc]
    have := le_max_right (0 : ℤ) L0
    linarith

/-- The rounded centring coordinate stays at or left of the box's left
edge once the crop side covers the content. -/
theorem round_center_le {l r : Nat} {S : Int} (hS : (r : Int) - (l : Int) ≤ S) :
    pyRound (((l : ℚ) + (r : ℚ)) / 2 - (S : ℚ) / 2) ≤ (l : Int) := by
  apply pyRound_le_of_le
  have h : ((r : ℚ)) - (l : ℚ) ≤ (S : ℚ) := by exact_mod_cast hS
  push_cast
  linarith

/-- The rounded centring coordinate leaves the crop covering the box's
right edge once the crop side covers the content. -/
theorem le_round_center {l r : Nat} {S : Int} (hS : (r : Int) - (l : Int) ≤ S) :
    (r : Int) - S ≤ pyRound (((l : ℚ) + (r : ℚ)) / 2 - (S : ℚ) / 2) := by
  apply le_pyRound_of_le
  have h : ((r : ℚ)) - (l : ℚ) ≤ (S : ℚ) := by exact_mod_cast hS
  push_cast
  linarith

/-! ### Computing `getbbox` for rectangle images -/

/-- A lower bound of the start and of every element bounds the running
minimum. -/
theorem le_foldl_min (g : Nat × Nat → Nat) (ps : List (Nat × Nat)) (a c : Nat)
    (ha : c ≤ a) (hps : ∀ q ∈ ps, c ≤ g q) :
    c ≤ ps.foldl (fun m q => min m (g q)) a := by
  induction ps generalizing a with
  | nil => exact ha
  | cons p ps ih =>
      exact ih _ (le_min ha (hps p (List.mem_cons_self p ps)))
        (fun q hq => hps q (List.mem_cons_of_mem _ hq))

/-- The running minimum is at most every element. -/
theorem foldl_min_le_mem (g : Nat × Nat → Nat) (ps : List (Nat × Nat)) :
    ∀ a, ∀ q ∈ ps, ps.foldl (fun m q => min m (g q)) a ≤ g q := by
  induction ps with
  | nil => intro a q hq; exact absurd hq (List.not_mem_nil q)
  | cons p ps ih =>
      intro a q hq
      rcases List.mem_cons.mp hq with rfl | hq'
      · exact le_trans (foldl_min_le_start g ps _) (min_le_right _ _)
      · exact ih _ q hq'

/-- The running maximum is at least its starting value. -/
theorem le_foldl_max_start (g : Nat × Nat → Nat) (ps : List (Nat × Nat)) (a : Nat) :
    a ≤ ps.foldl (fun m q => max m (g q)) a := by
  induction ps generalizing a with
  | nil => exact le_refl a
  | cons p ps ih => exact le_trans (le_max_left _ _) (ih (max a (g p)))

/-- The running maximum is at least every element. -/
theorem mem_le_foldl_max (g : Nat × Nat → Nat) (ps : List (Nat × Nat)) :
    ∀ a, ∀ q ∈ ps, g q ≤ ps.foldl (fun m q => max m (g q)) a := by
  induction ps with
  | nil => intro a q hq; exact absurd hq (List.not_mem_nil q)
  | cons p ps ih =>
      intro a q hq
      rcases List.mem_cons.mp hq with rfl | hq'
      · exact le_trans (le_max_right _ _) (le_foldl_max_start g ps _)
      · exact ih _ q hq'

/-- An upper bound of the start and of every element bounds the running
maximum. -/
theorem foldl_max_le (g : Nat × Nat → Nat) (ps : List (Nat × Nat)) (a c : Nat)
    (ha : a ≤ c) (hps : ∀ q ∈ ps, g q ≤ c) :
    ps.foldl (fun m q => max m (g q)) a ≤ c := by
  induction ps generalizing a with
  | nil => exact ha
  | cons p ps ih =>
      exact ih _ (max_le ha (hps p (List.mem_cons_self p ps)))
        (fun q hq => hps q (List.mem_cons_of_mem _ hq))

/-- `getbbox` returns exactly the box whose edges are attained by some
pixel while bounding all pixels. -/
theorem Img.getbbox_eq_of {img : Img} {l t r b : Nat}
    (hmem : ∀ p ∈ img.pixList, l ≤ p.1 ∧ p.1 < r ∧ t ≤ p.2 ∧ p.2 < b)
    (hl : ∃ p ∈ img.pixList, p.1 = l)
    (ht : ∃ p ∈ img.pixList, p.2 = t)
    (hr : ∃ p ∈ img.pixList, p.1 + 1 = r)
    (hb : ∃ p ∈ img.pixList, p.2 + 1 = b) :
    img.getbbox = some (l, t, r, b) := by
  unfold Img.getbbox
  cases hp : img.pixList with
  | nil =>
      obtain ⟨p0, hp0, _⟩ := hl
      rw [hp] at hp0
      exact absurd hp0 (List.not_mem_nil p0)
  | cons p ps =>
      rw [hp] at hmem hl ht hr hb
      have hpmem := hmem p (List.mem_cons_self p ps)
      refine congrArg some ?_
      have e1 : ps.foldl (fun m q => min m q.1) p.1 = l := by
        obtain ⟨q, hq, hq1⟩ := hl
        have hle : ps.foldl (fun m q => min m q.1) p.1 ≤ q.1 := by
          rcases List.mem_cons.mp hq with rfl | hq'
          · exact foldl_min_le_start (fun q => q.1) ps _
          · exact foldl_min_le_mem (fun q => q.1) ps _ q hq'
        have hge : l ≤ ps.foldl (fun m q => min m q.1) p.1 :=
          le_foldl_min (fun q => q.1) ps _ _ hpmem.1
            (fun q' hq' => (hmem q' (List.mem_cons_of_mem _ hq')).1)
        omega
      have e2 : ps.foldl (fun m q => min m q.2) p.2 = t := by
        obtain ⟨q, hq, hq1⟩ := ht
        have hle : ps.foldl (fun m q => min m q.2) p.2 ≤ q.2 := by
          rcases List.mem_cons.mp hq with rfl | hq'
          · exact foldl_min_le_start (fun q => q.2) ps _
          · exact foldl_min_le_mem (fun q => q.2) ps _ q hq'
        have hge : t ≤ ps.foldl (fun m q => min m q.2) p.2 :=
          le_foldl_min (fun q => q.2) ps _ _ hpmem.2.2.1
            (fun q' hq' => (hmem q' (List.mem_cons_of_mem _ hq')).2.2.1)
        omega
      have e3 : ps.foldl (fun m q => max m q.1) p.1 + 1 = r := by
        obtain ⟨q, hq, hq1⟩ := hr
        have hle : ps.foldl (fun m q => max m q.1) p.1 ≤ q.1 := by
          apply foldl_max_le
          · have := hpmem.2.1
            omega
          · intro q' hq'
            have := (hmem q' (List.mem_cons_of_mem _ hq')).2.1
            omega
        have hge : q.1 ≤ ps.foldl (fun m q => max m q.1) p.1 := by
          rcases List.mem_cons.mp hq with rfl | hq'
          · exact le_foldl_max_start (fun q => q.1) ps _
          · exact mem_le_foldl_max (fun q => q.1) ps _ q hq'
        omega
      have e4 : ps.foldl (fun m q => max m q.2) p.2 + 1 = b := by
        obtain ⟨q, hq, hq1⟩ := hb
        have hle : ps.foldl (fun m q => max m q.2) p.2 ≤ q.2 := by
          apply foldl_max_le
          · have := hpmem.2.2.2
            omega
          · intro q' hq'
            have := (hmem q' (List.mem_cons_of_mem _ hq')).2.2.2
            omega
        have hge : q.2 ≤ ps.foldl (fun m q => max m q.2) p.2 := by
          rcases List.mem_cons.mp hq with rfl | hq'
          · exact le_foldl_max_start (fun q => q.2) ps _
          · exact mem_le_foldl_max (fun q => q.2) ps _ q hq'
        omega
      rw [e1, e2, e3, e4]

/-- Membership in the pixel list of a rectangle image. -/
theorem rectImg_mem_pixList {w h x0 y0 x1 y1 : Nat} {p : Nat × Nat} :
    p ∈ (rectImg w h x0 y0 x1 y1).pixList ↔
      p.1 < w ∧ p.2 < h ∧ (x0 ≤ p.1 ∧ p.1 < x1 ∧ y0 ≤ p.2 ∧ p.2 < y1) := by
  rw [Img.mem_pixList]
  constructor
  · rintro ⟨h1, h2, h3⟩
    refine ⟨h1, h2, ?_⟩
    by_contra hc
    exact h3 (by simp only [rectImg]; rw [if_neg hc])
  · rintro ⟨h1, h2, h3⟩
    refine ⟨h1, h2, ?_⟩
    simp only [rectImg]
    rw [if_pos h3]
    norm_num

/-- The alpha bounding box of a rectangle image is the rectangle. -/
theorem rectImg_getbbox {w h x0 y0 x1 y1 : Nat}
    (hx0 : x0 < x1) (hx1 : x1 ≤ w) (hy0 : y0 < y1) (hy1 : y1 ≤ h) :
    (rectImg w h x0 y0 x1 y1).getbbox = some (x0, y0, x1, y1) := by
  apply Img.getbbox_eq_of
  · intro p hp
    have h := rectImg_mem_pixList.mp hp
    exact ⟨h.2.2.1, h.2.2.2.1, h.2.2.2.2.1, h.2.2.2.2.2⟩
  · exact ⟨(x0, y0), rectImg_mem_pixList.mpr
      ⟨by omega, by omega, by omega, by omega, by omega, by omega⟩, rfl⟩
  · exact ⟨(x0, y0), rectImg_mem_pixList.mpr
      ⟨by omega, by omega, by omega, by omega, by omega, by omega⟩, rfl⟩
  · exact ⟨(x1 - 1, y0), rectImg_mem_pixList.mpr
      ⟨by omega, by omega, by omega, by omega, by omega, by omega⟩,
      by show x1 - 1 + 1 = x1; omega⟩
  · exact ⟨(x0, y1 - 1), rectImg_mem_pixList.mpr
      ⟨by omega, by omega, by omega, by omega, by omega, by omega⟩,
      by show y1 - 1 + 1 = y1; omega⟩

/-- The bounding boxes of the concrete test images. -/
theorem img_blank_getbbox : img_blank.getbbox = none := by decide

/-- The 1×1 opaque image has the full box as bounding box. -/
theorem img_solid_getbbox : img_solid.getbbox = some (0, 0, 1, 1) :=
  rectImg_getbbox (by norm_num) (by norm_num) (by norm_num) (by norm_num)

/-- The tall image's bounding box. -/
theorem img_tall_getbbox : img_tall.getbbox = some (0, 0, 2, 4) :=
  rectImg_getbbox (by norm_num) (by norm_num) (by norm_num) (by norm_num)

/-- The small image's bounding box. -/
theorem img_small_getbbox : img_small.getbbox = some (1, 1, 3, 3) :=
  rectImg_getbbox (by norm_num) (by norm_num) (by norm_num) (by norm_num)

/-- The end-to-end image's bounding box. -/
theorem img_case5_getbbox : img_case5.getbbox = some (50, 20, 150, 80) :=
  rectImg_getbbox (by norm_num) (by norm_num) (by norm_num) (by norm_num)

/-! ### Geometry of the partial-content crop box -/

/-- The partial-content crop box written out componentwise. -/
theorem content_crop_box_def (w h l t r b : Nat) (fr : ℚ) :
    content_crop_box w h l t r b fr =
      (max 0 (min ((w : Int) - crop_side_of w h l t r b fr)
          (pyRound (((l : ℚ) + (r : ℚ)) / 2 - (crop_side_of w h l t r b fr : ℚ) / 2))),
       max 0 (min ((h : Int) - crop_side_of w h l t r b fr)
          (pyRound (((t : ℚ) + (b : ℚ)) / 2 - (crop_side_of w h l t r b fr : ℚ) / 2))),
       max 0 (min ((w : Int) - crop_side_of w h l t r b fr)
          (pyRound (((l : ℚ) + (r : ℚ)) / 2 - (crop_side_of w h l t r b fr : ℚ) / 2))) +
         crop_side_of w h l t r b fr,
       max 0 (min ((h : Int) - crop_side_of w h l t r b fr)
          (pyRound (((t : ℚ) + (b : ℚ)) / 2 - (crop_side_of w h l t r b fr : ℚ) / 2))) +
         crop_side_of w h l t r b fr) := rfl

/-- The partial-content crop box is a square of side `crop_side_of`. -/
theorem content_crop_box_sides (w h l t r b : Nat) (fr : ℚ) :
    (content_crop_box w h l t r b fr).2.2.1 - (content_crop_box w h l t r b fr).1 =
      crop_side_of w h l t r b fr ∧
    (content_crop_box w h l t r b fr).2.2.2 - (content_crop_box w h l t r b fr).2.1 =
      crop_side_of w h l t r b fr := by
  rw [content_crop_box_def]
  constructor <;> ring

/-- The partial-content crop box stays inside the image as long as the
crop side fits in the short dimension. -/
theorem content_crop_box_in_bounds {w h l t r b : Nat} {fr : ℚ}
    (hS : crop_side_of w h l t r b fr ≤ min (w : Int) (h : Int)) :
    0 ≤ (content_crop_box w h l t r b fr).1 ∧
    0 ≤ (content_crop_box w h l t r b fr).2.1 ∧
    (content_crop_box w h l t r b fr).2.2.1 ≤ (w : Int) ∧
    (content_crop_box w h l t r b fr).2.2.2 ≤ (h : Int) := by
  have hSw : crop_side_of w h l t r b fr ≤ (w : Int) := le_trans hS (min_le_left _ _)
  have hSh : crop_side_of w h l t r b fr ≤ (h : Int) := le_trans hS (min_le_right _ _)
  rw [content_crop_box_def]
  obtain ⟨ha1, ha2⟩ := @clamp_in_bounds (w : Int) (crop_side_of w h l t r b fr)
    (pyRound (((l : ℚ) + (r : ℚ)) / 2 - (crop_side_of w h l t r b fr : ℚ) / 2)) hSw
  obtain ⟨hb1, hb2⟩ := @clamp_in_bounds (h : Int) (crop_side_of w h l t r b fr)
    (pyRound (((t : ℚ) + (b : ℚ)) / 2 - (crop_side_of w h l t r b fr : ℚ) / 2)) hSh
  exact ⟨ha1, hb1, ha2, hb2⟩

/-- The partial-content crop box always contains the alpha bounding box. -/
theorem content_crop_box_contains {w h l t r b : Nat} {fr : ℚ}
    (hrw : r ≤ w) (hbh : b ≤ h) :
    (content_crop_box w h l t r b fr).1 ≤ (l : Int) ∧
    (content_crop_box w h l t r b fr).2.1 ≤ (t : Int) ∧
    (r : Int) ≤ (content_crop_box w h l t r b fr).2.2.1 ∧
    (b : Int) ≤ (content_crop_box w h l t r b fr).2.2.2 := by
  have hSx : (r : Int) - (l : Int) ≤ crop_side_of w h l t r b fr :=
    le_trans (le_trans (le_max_right 1 _) (le_max_left _ _))
      (content_side_le_crop_side w h l t r b fr)
  have hSy : (b : Int) - (t : Int) ≤ crop_side_of w h l t r b fr :=
    le_trans (le_trans (le_max_right 1 _) (le_max_right _ _))
      (content_side_le_crop_side w h l t r b fr)
  rw [content_crop_box_def]
  refine ⟨?_, ?_, ?_, ?_⟩
  · exact clamp_le_of_le (Int.natCast_nonneg l) (round_center_le hSx)
  · exact clamp_le_of_le (Int.natCast_nonneg t) (round_center_le hSy)
  · exact le_clamp_add (by exact_mod_cast hrw) (by linarith [le_round_center hSx])
  · exact le_clamp_add (by exact_mod_cast hbh) (by linarith [le_round_center hSy])

/-! ### Evaluating the crop geometry on concrete inputs -/

/-- Evaluate `crop_side_of` once the truncated division is known. -/
theorem crop_side_eval {w h l t r b : Nat} {fr : ℚ} {cs T : Int}
    (hcs : content_side_of l t r b = cs)
    (hdiv : (cs : ℚ) / fr = (T : ℚ)) (hT : 0 ≤ T) :
    crop_side_of w h l t r b fr = max cs (min (min (w : Int) (h : Int)) T) := by
  rw [crop_side_of, hcs, hdiv, pyInt_intCast hT]

/-- The tall image with fill ratio 1: the crop side (4) exceeds `min_dim`
(2) and the crop box spills out of the image on the right. -/
theorem img_tall_box : build_crop_box img_tall 1 = (0, 0, 4, 4) := by
  rw [build_crop_box_some 1 img_tall_getbbox (by decide)]
  rw [show img_tall.width = 2 from rfl, show img_tall.height = 5 from rfl]
  rw [content_crop_box_def]
  have hS : crop_side_of 2 5 0 0 2 4 1 = 4 := by
    rw [crop_side_eval (by decide : content_side_of 0 0 2 4 = (4 : Int))
      (show ((4 : Int) : ℚ) / 1 = ((4 : Int) : ℚ) by norm_num) (by norm_num)]
    decide
  rw [hS]
  have e1 : (((0 : Nat) : ℚ) + ((2 : Nat) : ℚ)) / 2 - ((4 : Int) : ℚ) / 2 = ((-1 : Int) : ℚ) := by
    push_cast
    norm_num
  have e2 : (((0 : Nat) : ℚ) + ((4 : Nat) : ℚ)) / 2 - ((4 : Int) : ℚ) / 2 = ((0 : Int) : ℚ) := by
    push_cast
    norm_num
  rw [e1, e2, pyRound_intCast, pyRound_intCast]
  decide

/-- The 1×1 opaque image yields the full-image crop box for fill ratio
1/2: the fixed-ratio side collapses to the 1-pixel minimum. -/
theorem img_solid_box : build_crop_box img_solid (1/2) = (0, 0, 1, 1) := by
  rw [build_crop_box_full (1/2) img_solid_getbbox]
  rw [show img_solid.width = 1 from rfl, show img_solid.height = 1 from rfl]
  have h2 : pyInt (((min ((1 : Nat) : Int) ((1 : Nat) : Int) : Int) : ℚ) * (1/2)) = 0 := by
    rw [show (((min ((1 : Nat) : Int) ((1 : Nat) : Int) : Int) : ℚ) * (1/2)) = (1/2 : ℚ) by
      push_cast; norm_num]
    rw [pyInt_eq_floor (by norm_num)]
    exact Int.floor_eq_iff.mpr (by norm_num)
  rw [h2]
  decide

/-- The end-to-end image: the crop box is `(50, 0, 150, 100)`. -/
theorem img_case5_box : build_crop_box img_case5 (1/2) = (50, 0, 150, 100) := by
  rw [build_crop_box_some (1/2) img_case5_getbbox (by decide)]
  rw [show img_case5.width = 200 from rfl, show img_case5.height = 100 from rfl]
  rw [content_crop_box_def]
  have hS : crop_side_of 200 100 50 20 150 80 (1/2) = 100 := by
    rw [crop_side_eval (by decide : content_side_of 50 20 150 80 = (100 : Int))
      (show ((100 : Int) : ℚ) / (1/2) = ((200 : Int) : ℚ) by norm_num) (by norm_num)]
    decide
  rw [hS]
  have e1 : (((50 : Nat) : ℚ) + ((150 : Nat) : ℚ)) / 2 - ((100 : Int) : ℚ) / 2 =
      ((50 : Int) : ℚ) := by
    push_cast
    norm_num
  have e2 : (((20 : Nat) : ℚ) + ((80 : Nat) : ℚ)) / 2 - ((100 : Int) : ℚ) / 2 =
      ((0 : Int) : ℚ) := by
    push_cast
    norm_num
  rw [e1, e2, pyRound_intCast, pyRound_intCast]
  decide

/-! ### The claims -/

/-- C1 (counterexample): for the 2×5 image whose content column is 4 pixels
tall and fill ratio 1 (which lies in (0,1]), the crop box's right edge (4)
exceeds the image width (2), so the crop box is not contained in the
source image's bounds. -/
theorem C1_counterexample :
    (0 : ℚ) < 1 ∧ (1 : ℚ) ≤ 1 ∧
    ¬ ((build_crop_box img_tall 1).2.2.1 ≤ (img_tall.width : Int)) := by
  refine ⟨by norm_num, le_refl 1, ?_⟩
  rw [img_tall_box]
  decide

/-- C1 (amended): for every image with positive dimensions and fill ratio in
(0,1], if the content side of a partial bounding box fits in
`min(width, height)` then the crop box lies entirely within the source
image's bounds: `0 ≤ left`, `0 ≤ top`, `right ≤ width`, `bottom ≤
height`. -/
theorem C1_crop_box_in_bounds (img : Img) (fr : ℚ) (h0 : 0 < fr) (h1 : fr ≤ 1)
    (hw : 1 ≤ img.width) (hh : 1 ≤ img.height)
    (hfit : ∀ l t r b : Nat, img.getbbox = some (l, t, r, b) →
      (l, t, r, b) ≠ (0, 0, img.width, img.height) →
      content_side_of l t r b ≤ min (img.width : Int) (img.height : Int)) :
    0 ≤ (build_crop_box img fr).1 ∧ 0 ≤ (build_crop_box img fr).2.1 ∧
    (build_crop_box img fr).2.2.1 ≤ (img.width : Int) ∧
    (build_crop_box img fr).2.2.2 ≤ (img.height : Int) := by
  have hmd : 1 ≤ min (img.width : Int) (img.height : Int) := by
    have hw' : (1 : Int) ≤ (img.width : Int) := by exact_mod_cast hw
    have hh' : (1 : Int) ≤ (img.height : Int) := by exact_mod_cast hh
    exact le_min hw' hh'
  cases hbb : img.getbbox with
  | none =>
      rw [build_crop_box_none fr hbb]
      obtain ⟨hs1, hs2⟩ := center_side_bounds hmd h0 h1
      exact centered_square_in_bounds (le_trans hs2 (min_le_left _ _))
        (le_trans hs2 (min_le_right _ _))
  | some bb =>
      obtain ⟨l, t, r, b⟩ := bb
      by_cases hfull : (l, t, r, b) = (0, 0, img.width, img.height)
      · rw [hfull] at hbb
        rw [build_crop_box_full fr hbb]
        obtain ⟨hs1, hs2⟩ := center_side_bounds hmd h0 h1
        exact centered_square_in_bounds (le_trans hs2 (min_le_left _ _))
          (le_trans hs2 (min_le_right _ _))
      · rw [build_crop_box_some fr hbb hfull]
        exact content_crop_box_in_bounds (crop_side_le_min_dim (hfit l t r b hbb hfull))

/-- C1 (witness): the amended bound holds concretely for the 4×4 image with
central content at fill ratio 1/2. -/
theorem C1_crop_box_in_bounds_witness :
    0 ≤ (build_crop_box img_small (1/2)).1 ∧ 0 ≤ (build_crop_box img_small (1/2)).2.1 ∧
    (build_crop_box img_small (1/2)).2.2.1 ≤ (img_small.width : Int) ∧
    (build_crop_box img_small (1/2)).2.2.2 ≤ (img_small.height : Int) :=
  C1_crop_box_in_bounds img_small (1/2) (by norm_num) (by norm_num) (by decide) (by decide)
    (by
      intro l t r b hbb hne
      have h' := Option.some.inj (img_small_getbbox.symm.trans hbb)
      simp only [Prod.mk.injEq] at h'
      obtain ⟨rfl, rfl, rfl, rfl⟩ := h'
      decide)

/-- C2: for every partial-content image and fill ratio in (0,1], the crop
box contains the full alpha bounding box: `crop_left ≤ bbox_left`,
`crop_top ≤ bbox_top`, `bbox_right ≤ crop_right`, `bbox_bottom ≤
crop_bottom`. -/
theorem C2_crop_contains_bbox (img : Img) (fr : ℚ) (h0 : 0 < fr) (h1 : fr ≤ 1)
    (l t r b : Nat) (hbb : img.getbbox = some (l, t, r, b))
    (hne : (l, t, r, b) ≠ (0, 0, img.width, img.height)) :
    (build_crop_box img fr).1 ≤ (l : Int) ∧
    (build_crop_box img fr).2.1 ≤ (t : Int) ∧
    (r : Int) ≤ (build_crop_box img fr).2.2.1 ∧
    (b : Int) ≤ (build_crop_box img fr).2.2.2 := by
  obtain ⟨hb1, hb2, hb3, hb4⟩ := Img.getbbox_bounds hbb
  rw [build_crop_box_some fr hbb hne]
  exact content_crop_box_contains hb2 hb4

/-- C2 (witness): containment holds concretely for the 4×4 image with
bounding box (1,1,3,3) at fill ratio 1/2. -/
theorem C2_crop_contains_bbox_witness :
    (build_crop_box img_small (1/2)).1 ≤ ((1 : Nat) : Int) ∧
    (build_crop_box img_small (1/2)).2.1 ≤ ((1 : Nat) : Int) ∧
    ((3 : Nat) : Int) ≤ (build_crop_box img_small (1/2)).2.2.1 ∧
    ((3 : Nat) : Int) ≤ (build_crop_box img_small (1/2)).2.2.2 :=
  C2_crop_contains_bbox img_small (1/2) (by norm_num) (by norm_num) 1 1 3 3
    img_small_getbbox (by decide)

/-- C3: for every partial-content image and fill ratio in (0,1], the crop
side equals `content_side / fill_ratio` truncated to an integer and
clamped through `max(content_side, min(min_dim, target_side))`, with
`content_side` the larger bounding-box dimension, each dimension floored
to 1. -/
theorem C3_crop_side_formula (img : Img) (fr : ℚ) (h0 : 0 < fr) (h1 : fr ≤ 1)
    (l t r b : Nat) (hbb : img.getbbox = some (l, t, r, b))
    (hne : (l, t, r, b) ≠ (0, 0, img.width, img.height)) :
    (build_crop_box img fr).2.2.1 - (build_crop_box img fr).1 =
      max (max (max 1 ((r : Int) - (l : Int))) (max 1 ((b : Int) - (t : Int))))
        (min (min (img.width : Int) (img.height : Int))
          (pyInt ((max (max 1 ((r : Int) - (l : Int))) (max 1 ((b : Int) - (t : Int))) : Int)
            / fr))) := by
  rw [build_crop_box_some fr hbb hne,
    (content_crop_box_sides img.width img.height l t r b fr).1]
  rfl

/-- C3 (witness): the crop-side formula holds concretely for the 4×4 image
at fill ratio 1/2. -/
theorem C3_crop_side_formula_witness :
    (build_crop_box img_small (1/2)).2.2.1 - (build_crop_box img_small (1/2)).1 =
      max (max (max 1 (((3 : Nat) : Int) - ((1 : Nat) : Int)))
          (max 1 (((3 : Nat) : Int) - ((1 : Nat) : Int))))
        (min (min (img_small.width : Int) (img_small.height : Int))
          (pyInt ((max (max 1 (((3 : Nat) : Int) - ((1 : Nat) : Int)))
              (max 1 (((3 : Nat) : Int) - ((1 : Nat) : Int))) : Int) / (1/2)))) :=
  C3_crop_side_formula img_small (1/2) (by norm_num) (by norm_num) 1 1 3 3
    img_small_getbbox (by decide)

/-- C4 (counterexample): for the fully opaque 1×1 image and fill ratio 1/2,
the crop box equals the full image `(0, 0, width, height)`, contradicting
"not the full image". -/
theorem C4_counterexample :
    (0 : ℚ) < 1/2 ∧ (1/2 : ℚ) ≤ 1 ∧
    img_solid.getbbox = some (0, 0, img_solid.width, img_solid.height) ∧
    build_crop_box img_solid (1/2) =
      (0, 0, (img_solid.width : Int), (img_solid.height : Int)) := by
  refine ⟨by norm_num, by norm_num, img_solid_getbbox, ?_⟩
  rw [img_solid_box]
  decide

/-- C4 (amended): for every fully transparent image and every fully opaque
image, with fill ratio in (0,1], the crop box is the centred square of
side `max(1, floor(min(W,H) * fill_ratio))`; this square can coincide with
the full image (for instance on a 1×1 opaque input). -/
theorem C4_fixed_center_crop (img : Img) (fr : ℚ) (h0 : 0 < fr) (h1 : fr ≤ 1)
    (h : img.getbbox = none ∨ img.getbbox = some (0, 0, img.width, img.height)) :
    build_crop_box img fr =
      centered_square_crop_bounds img.width img.height
        (max 1 ⌊((min (img.width : Int) (img.height : Int) : Int) : ℚ) * fr⌋) := by
  have hmd : (0 : ℚ) ≤ ((min (img.width : Int) (img.height : Int) : Int) : ℚ) := by
    have hge : (0 : Int) ≤ min (img.width : Int) (img.height : Int) :=
      le_min (Int.natCast_nonneg _) (Int.natCast_nonneg _)
    exact_mod_cast hge
  have hpy : pyInt (((min (img.width : Int) (img.height : Int) : Int) : ℚ) * fr) =
      ⌊((min (img.width : Int) (img.height : Int) : Int) : ℚ) * fr⌋ :=
    pyInt_eq_floor (mul_nonneg hmd h0.le)
  rcases h with h | h
  · rw [build_crop_box_none fr h, hpy]
  · rw [build_crop_box_full fr h, hpy]

/-- C4 (witness): the fixed-ratio centred square is produced concretely for
the transparent 3×3 image at fill ratio 1/2. -/
theorem C4_fixed_center_crop_witness :
    build_crop_box img_blank (1/2) =
      centered_square_crop_bounds img_blank.width img_blank.height
        (max 1 ⌊((min (img_blank.width : Int) (img_blank.height : Int) : Int) : ℚ) * (1/2)⌋) :=
  C4_fixed_center_crop img_blank (1/2) (by norm_num) (by norm_num) (Or.inl img_blank_getbbox)

/-- C5: for the 200×100 image whose opaque content is exactly the pixel
rectangle (50,20)–(150,80) and fill ratio 0.5: the bounding box is
(50,20,150,80); content side is 100; the target side 200 is clamped to
`min_dim` 100; and the crop box is exactly (50, 0, 150, 100). -/
theorem C5_end_to_end :
    img_case5.getbbox = some (50, 20, 150, 80) ∧
    content_side_of 50 20 150 80 = 100 ∧
    pyInt (((100 : Int) : ℚ) / (1/2)) = 200 ∧
    crop_side_of 200 100 50 20 150 80 (1/2) = 100 ∧
    build_crop_box img_case5 (1/2) = (50, 0, 150, 100) := by
  refine ⟨img_case5_getbbox, by decide, ?_, ?_, img_case5_box⟩
  · rw [show ((100 : Int) : ℚ) / (1/2) = ((200 : Int) : ℚ) by norm_num]
    exact pyInt_intCast (by norm_num)
  · rw [crop_side_eval (by decide : content_side_of 50 20 150 80 = (100 : Int))
      (show ((100 : Int) : ℚ) / (1/2) = ((200 : Int) : ℚ) by norm_num) (by norm_num)]
    decide

/-- C6 (counterexample): for the 2×5 image whose content is 4 pixels tall
and fill ratio 1, the crop side (4) exceeds `min(width, height)` (2), so
the claimed upper bound by `min_dim` fails. -/
theorem C6_counterexample :
    (0 : ℚ) < 1 ∧ (1 : ℚ) ≤ 1 ∧
    img_tall.getbbox = some (0, 0, 2, 4) ∧
    (0, 0, 2, 4) ≠ (0, 0, img_tall.width, img_tall.height) ∧
    ¬ ((build_crop_box img_tall 1).2.2.1 - (build_crop_box img_tall 1).1 ≤
        min (img_tall.width : Int) (img_tall.height : Int)) := by
  refine ⟨by norm_num, le_refl 1, img_tall_getbbox, by decide, ?_⟩
  rw [img_tall_box]
  decide

/-- C6 (amended): for every partial-content image the crop side is antitone
in the fill ratio (`fr1 ≤ fr2` gives a side at `fr2` no larger than at
`fr1`), never falls below the content side, and is bounded above by
`max(content_side, min(width, height))` (the bound `min(width, height)`
alone holds only when the content fits). -/
theorem C6_crop_side_antitone (img : Img) (fr1 fr2 : ℚ)
    (h0 : 0 < fr1) (h12 : fr1 ≤ fr2) (h2 : fr2 ≤ 1)
    (l t r b : Nat) (hbb : img.getbbox = some (l, t, r, b))
    (hne : (l, t, r, b) ≠ (0, 0, img.width, img.height)) :
    (build_crop_box img fr2).2.2.1 - (build_crop_box img fr2).1 ≤
      (build_crop_box img fr1).2.2.1 - (build_crop_box img fr1).1 ∧
    content_side_of l t r b ≤
      (build_crop_box img fr2).2.2.1 - (build_crop_box img fr2).1 ∧
    (build_crop_box img fr1).2.2.1 - (build_crop_box img fr1).1 ≤
      max (content_side_of l t r b) (min (img.width : Int) (img.height : Int)) := by
  rw [build_crop_box_some fr1 hbb hne, build_crop_box_some fr2 hbb hne,
    (content_crop_box_sides img.width img.height l t r b fr1).1,
    (content_crop_box_sides img.width img.height l t r b fr2).1]
  exact ⟨crop_side_antitone img.width img.height l t r b h0 h12,
    content_side_le_crop_side img.width img.height l t r b fr2,
    crop_side_le_max img.width img.height l t r b fr1⟩

/-- C6 (witness): antitonicity and the bounds hold concretely for the 4×4
image with fill ratios 1/2 ≤ 1. -/
theorem C6_crop_side_antitone_witness :
    (build_crop_box img_small 1).2.2.1 - (build_crop_box img_small 1).1 ≤
      (build_crop_box img_small (1/2)).2.2.1 - (build_crop_box img_small (1/2)).1 ∧
    content_side_of 1 1 3 3 ≤
      (build_crop_box img_small 1).2.2.1 - (build_crop_box img_small 1).1 ∧
    (build_crop_box img_small (1/2)).2.2.1 - (build_crop_box img_small (1/2)).1 ≤
      max (content_side_of 1 1 3 3) (min (img_small.width : Int) (img_small.height : Int)) :=
  C6_crop_side_antitone img_small (1/2) 1 (by norm_num) (by norm_num) (le_refl 1)
    1 1 3 3 img_small_getbbox (by decide)

/-- C7: the prepared icon returned by `build_prepared_icon` is always
exactly 1024×1024, for every input image and fill ratio in (0,1]. -/
theorem C7_output_1024 (img : Img) (fr : ℚ) (h0 : 0 < fr) (h1 : fr ≤ 1) :
    (build_prepared_icon img fr).width = 1024 ∧
    (build_prepared_icon img fr).height = 1024 :=
  ⟨rfl, rfl⟩

/-- C7 (witness): concretely, the prepared icon of the transparent 3×3
image at fill ratio 1/2 is 1024×1024. -/
theorem C7_output_1024_witness :
    (build_prepared_icon img_blank (1/2)).width = 1024 ∧
    (build_prepared_icon img_blank (1/2)).height = 1024 :=
  C7_output_1024 img_blank (1/2) (by norm_num) (by norm_num)

/-- C8: for every input image and fill ratio in (0,1], the crop box is a
square of positive side, on all three branches: `right - left = bottom -
top` and `right - left ≥ 1`. -/
theorem C8_square_positive_side (img : Img) (fr : ℚ) (h0 : 0 < fr) (h1 : fr ≤ 1) :
    (build_crop_box img fr).2.2.1 - (build_crop_box img fr).1 =
      (build_crop_box img fr).2.2.2 - (build_crop_box img fr).2.1 ∧
    1 ≤ (build_crop_box img fr).2.2.1 - (build_crop_box img fr).1 := by
  cases hbb : img.getbbox with
  | none =>
      rw [build_crop_box_none fr hbb]
      rw [(centered_square_sides _ _ _).1, (centered_square_sides _ _ _).2]
      exact ⟨rfl, le_max_left _ _⟩
  | some bb =>
      obtain ⟨l, t, r, b⟩ := bb
      by_cases hfull : (l, t, r, b) = (0, 0, img.width, img.height)
      · rw [hfull] at hbb
        rw [build_crop_box_full fr hbb]
        rw [(centered_square_sides _ _ _).1, (centered_square_sides _ _ _).2]
        exact ⟨rfl, le_max_left _ _⟩
      · rw [build_crop_box_some fr hbb hfull]
        rw [(content_crop_box_sides _ _ _ _ _ _ _).1, (content_crop_box_sides _ _ _ _ _ _ _).2]
        exact ⟨rfl, le_trans (one_le_content_side l t r b)
          (content_side_le_crop_side img.width img.height l t r b fr)⟩

/-- C8 (witness): concretely, the crop box of the 4×4 image at fill ratio
1/2 is a square of positive side. -/
theorem C8_square_positive_side_witness :
    (build_crop_box img_small (1/2)).2.2.1 - (build_crop_box img_small (1/2)).1 =
      (build_crop_box img_small (1/2)).2.2.2 - (build_crop_box img_small (1/2)).2.1 ∧
    1 ≤ (build_crop_box img_small (1/2)).2.2.1 - (build_crop_box img_small (1/2)).1 :=
  C8_square_positive_side img_small (1/2) (by norm_num) (by norm_num)

/-- C9 (counterexample): with four arguments whose fill-ratio argument does
not parse as a float and a nonexistent input path, `main` terminates with
an uncaught `ValueError` rather than exiting with code 1 and the
not-found message. -/
theorem C9_counterexample :
    MakeIcns.main ["make_icns.py", "in.png", "out.icns", "x"] (fun _ => none)
      (fun _ => false) = MainResult.raised "ValueError" ∧
    MakeIcns.main ["make_icns.py", "in.png", "out.icns", "x"] (fun _ => none)
      (fun _ => false) ≠
      MainResult.exited 1 ["Icon source not found: in.png"] [] := by
  constructor
  · rfl
  · decide

/-- C9 (amended): `main` exits with code 1 and the usage message on stderr
when the argument count is not 3 or 4; when the count is right and the
optional fill-ratio argument (if present) parses, it exits with code 1 and
a not-found message on stderr if the input does not exist, and exits with
code 0 and a confirmation on stdout otherwise. -/
theorem C9_cli_behaviour (argv : List String) (pf : String → Option ℚ)
    (pe : String → Bool) :
    (¬ (argv.length = 3 ∨ argv.length = 4) →
      MakeIcns.main argv pf pe = MainResult.exited 1 [usage_message] []) ∧
    ((argv.length = 3 ∨ (argv.length = 4 ∧ (pf (argv.getD 3 "")).isSome)) →
      pe (argv.getD 1 "") = false →
      MakeIcns.main argv pf pe =
        MainResult.exited 1 ["Icon source not found: " ++ argv.getD 1 ""] []) ∧
    ((argv.length = 3 ∨ (argv.length = 4 ∧ (pf (argv.getD 3 "")).isSome)) →
      pe (argv.getD 1 "") = true →
      MakeIcns.main argv pf pe =
        MainResult.exited 0 [] ["Wrote icon: " ++ argv.getD 2 ""]) := by
  refine ⟨?_, ?_, ?_⟩
  · intro h
    simp only [MakeIcns.main, if_pos h]
  · rintro (h3 | ⟨h4, hpf⟩) hpe
    · simp only [MakeIcns.main]
      rw [if_neg (not_not_intro (Or.inl h3)), if_neg (by omega : ¬ argv.length = 4)]
      split <;> rename_i heq
      · exact absurd heq (by simp)
      · rw [hpe]
        simp
    · obtain ⟨q, hq⟩ := Option.isSome_iff_exists.mp hpf
      simp only [MakeIcns.main]
      rw [if_neg (not_not_intro (Or.inr h4)), if_pos h4, hq]
      split <;> rename_i heq
      · exact absurd heq (by simp)
      · rw [hpe]
        simp
  · rintro (h3 | ⟨h4, hpf⟩) hpe
    · simp only [MakeIcns.main]
      rw [if_neg (not_not_intro (Or.inl h3)), if_neg (by omega : ¬ argv.length = 4)]
      split <;> rename_i heq
      · exact absurd heq (by simp)
      · rw [hpe]
        simp
    · obtain ⟨q, hq⟩ := Option.isSome_iff_exists.mp hpf
      simp only [MakeIcns.main]
      rw [if_neg (not_not_intro (Or.inr h4)), if_pos h4, hq]
      split <;> rename_i heq
      · exact absurd heq (by simp)
      · rw [hpe]
        simp

/-- C9 (witness): the three amended behaviours hold on concrete
invocations. -/
theorem C9_cli_behaviour_witness :
    MakeIcns.main ["make_icns.py"] (fun _ => some 1) (fun _ => true) =
      MainResult.exited 1 [usage_message] [] ∧
    MakeIcns.main ["make_icns.py", "a.png", "b.icns"] (fun _ => some 1) (fun _ => false) =
      MainResult.exited 1
        ["Icon source not found: " ++ ["make_icns.py", "a.png", "b.icns"].getD 1 ""] [] ∧
    MakeIcns.main ["make_icns.py", "a.png", "b.icns"] (fun _ => some 1) (fun _ => true) =
      MainResult.exited 0 []
        ["Wrote icon: " ++ ["make_icns.py", "a.png", "b.icns"].getD 2 ""] :=
  ⟨(C9_cli_behaviour ["make_icns.py"] (fun _ => some 1) (fun _ => true)).1 (by decide),
   (C9_cli_behaviour ["make_icns.py", "a.png", "b.icns"] (fun _ => some 1)
      (fun _ => false)).2.1 (Or.inl (by decide)) rfl,
   (C9_cli_behaviour ["make_icns.py", "a.png", "b.icns"] (fun _ => some 1)
      (fun _ => true)).2.2 (Or.inl (by decide)) rfl⟩

/-- C10: when `main` is called with four arguments whose third user
argument does not parse as a float, the `float()` call raises `ValueError`
before the input-existence check, so the run ends in an uncaught exception
regardless of whether the input path exists. -/
theorem C10_unparsed_ratio_raises (argv : List String) (pf : String → Option ℚ)
    (pe : String → Bool) (h4 : argv.length = 4)
    (hpf : pf (argv.getD 3 "") = none) :
    MakeIcns.main argv pf pe = MainResult.raised "ValueError" := by
  simp only [MakeIcns.main]
  rw [if_neg (not_not_intro (Or.inr h4)), if_pos h4, hpf]

/-- C10 (witness): concretely, an unparseable fill ratio with a missing
input file raises rather than exiting. -/
theorem C10_unparsed_ratio_raises_witness :
    MakeIcns.main ["make_icns.py", "missing.png", "out.icns", "abc"] (fun _ => none)
      (fun _ => false) = MainResult.raised "ValueError" :=
  C10_unparsed_ratio_raises ["make_icns.py", "missing.png", "out.icns", "abc"]
    (fun _ => none) (fun _ => false) (by decide) rfl
